import Mathlib

/-!
Shallow embedding of the python-utils repository (src/python_util.py,
src/env_variable.py, src/colored_print.py) and proofs about its claims.

Python strings are modelled as `List Char` in the tokenizer component and as
Lean `String` elsewhere.  Machine-level notions (the process environment,
the advisory file-lock table, the file system) are modelled as explicit
state values that the embedded functions thread.
-/

namespace PyUtil

/-- The character class of Python's `str.isspace` (also the class matched by
`\s` in a `str` pattern of the `re` module: CPython uses the same
`Py_UNICODE_ISSPACE` table for both). -/
def pyIsSpace (c : Char) : Bool :=
  let n := c.toNat
  (9 ≤ n && n ≤ 13) || (28 ≤ n && n ≤ 31) || n == 32 || n == 0x85 ||
    n == 0xA0 || n == 0x1680 || (0x2000 ≤ n && n ≤ 0x200A) || n == 0x2028 ||
    n == 0x2029 || n == 0x202F || n == 0x205F || n == 0x3000

/-- The class `\S` (a character that is not whitespace). -/
def pyNotSpace (c : Char) : Bool := ! pyIsSpace c

/-- Normalisation of one bound of a Python slice `s[a:b]` for a string of
length `n`: a negative index counts from the end, and both ends are clamped
into `[0, n]`. -/
def pyIdx (n : Nat) (a : Int) : Nat :=
  if a < 0 then ((n : Int) + a).toNat else min a.toNat n

/-- Python slice `s[a:]`. -/
def pySliceFrom (s : List Char) (a : Int) : List Char :=
  s.drop (pyIdx s.length a)

/-- Python slice `s[a:b]`. -/
def pySlice (s : List Char) (a b : Int) : List Char :=
  (s.take (pyIdx s.length b)).drop (pyIdx s.length a)

/-! ### src/python_util.py: get_first_word (direct scan, lines 219-238) -/

/-- The `for i, c in enumerate(line)` loop of `get_first_word`;
`line` is the whole string (needed for the slices), the second argument the
part of the line not yet scanned, `i` the index of its first character and
`lse` the Python variable `leading_space_end`. -/
def get_first_word_go (line : List Char) :
    List Char → Nat → Int → List Char
  | [], _, lse => pySliceFrom line (lse + 1)
  | c :: cs, i, lse =>
    if pyIsSpace c then
      if lse < -1 then get_first_word_go line cs (i + 1) lse
      else pySlice line (lse + 1) (i : Int)
    else
      if lse < -1 then get_first_word_go line cs (i + 1) ((i : Int) - 1)
      else get_first_word_go line cs (i + 1) lse

/-- `get_first_word(line)` from src/python_util.py: direct scan, with
`leading_space_end` initialised to `-1`. -/
def get_first_word (line : List Char) : List Char :=
  get_first_word_go line line 0 (-1)

/-! ### src/python_util.py: get_line_without_first_word (lines 255-273) -/

/-- The loop of `get_line_without_first_word`; `lse` and `lwe` are
`leading_space_end` and `leading_word_end`. -/
def get_line_without_first_word_go (line : List Char) :
    List Char → Nat → Int → Int → List Char
  | [], _, _, _ => []
  | c :: cs, i, lse, lwe =>
    if pyIsSpace c then
      if -1 ≤ lse then
        get_line_without_first_word_go line cs (i + 1) lse ((i : Int) - 1)
      else
        get_line_without_first_word_go line cs (i + 1) lse lwe
    else
      if lse < -1 then
        get_line_without_first_word_go line cs (i + 1) ((i : Int) - 1) lwe
      else if 0 ≤ lwe then pySliceFrom line (i : Int)
      else get_line_without_first_word_go line cs (i + 1) lse lwe

/-- `get_line_without_first_word(line)` from src/python_util.py, with
`leading_space_end = -2` and `leading_word_end = -1`. -/
def get_line_without_first_word (line : List Char) : List Char :=
  get_line_without_first_word_go line line 0 (-2) (-1)

/-! ### A small engine for the two `re` patterns of src/python_util.py

The patterns `^\s*(\S+)` and `^\s*\S+\s*(.*\r?\n)` are built from single
characters classes, their greedy `*`/`+`/`?` repetitions and one capturing
group.  The engine below implements Python `re.match` semantics for such
patterns: leftmost match anchored at the start, greedy quantifiers,
backtracking through an explicit continuation, and no requirement to reach
the end of the string. -/

/-- Regular expressions over character classes.  `starCls p` is the greedy
`p*` of a single character class (the only starred sub-patterns in the two
source patterns are `\s`, `\S` and `.`). -/
inductive RE where
  | eps : RE
  | cls : (Char → Bool) → RE
  | cat : RE → RE → RE
  | alt : RE → RE → RE
  | starCls : (Char → Bool) → RE

/-- Greedy match of `p*` at the front of `s`: first try to consume a
`p`-character and continue greedily, on failure hand the current position to
the continuation `k` (backtracking). -/
def starClsMatch (p : Char → Bool) :
    List Char → (List Char → Option (List Char)) → Option (List Char)
  | [], k => k []
  | c :: cs, k =>
    if p c then (starClsMatch p cs k) <|> k (c :: cs) else k (c :: cs)

/-- Match `r` at the front of `s` and pass every admissible remainder, in
greedy order, to the continuation `k` until one succeeds. -/
def matchC : RE → List Char → (List Char → Option (List Char)) →
    Option (List Char)
  | .eps, s, k => k s
  | .cls p, s, k =>
    match s with
    | [] => none
    | c :: cs => if p c then k cs else none
  | .cat a b, s, k => matchC a s fun s1 => matchC b s1 k
  | .alt a b, s, k => (matchC a s k) <|> (matchC b s k)
  | .starCls p, s, k => starClsMatch p s k

/-- `re.compile(pre ++ "(" ++ grp ++ ")").match(s)` followed by `.group(1)`
for a pattern that is a prefix part `pre` followed by one capturing group
`grp` at its end: the group's capture of the leftmost-greedy match, or
`none` when the pattern does not match at the start of `s`. -/
def reMatchGroup (pre grp : RE) (s : List Char) : Option (List Char) :=
  matchC pre s fun r =>
    (matchC grp r some).map fun r2 => r.take (r.length - r2.length)

/-- `^\s*` of `first_word_re` (src/python_util.py line 241). -/
def first_word_re_pre : RE := .starCls pyIsSpace

/-- `(\S+)` of `first_word_re`, written `\S\S*`. -/
def first_word_re_grp : RE := .cat (.cls pyNotSpace) (.starCls pyNotSpace)

/-- `get_first_word_re(line)` from src/python_util.py (lines 244-252):
`match.group(1)` of `^\s*(\S+)` when the pattern matches, else the line. -/
def get_first_word_re (line : List Char) : List Char :=
  match reMatchGroup first_word_re_pre first_word_re_grp line with
  | some g => g
  | none => line

/-- The class of `.` without `re.DOTALL`: any character but a newline. -/
def pyDot (c : Char) : Bool := c != '\n'

/-- `^\s*\S+\s*` of `line_without_first_word_re`
(src/python_util.py line 277), with `\S+` written `\S\S*`. -/
def line_without_first_word_re_pre : RE :=
  .cat (.starCls pyIsSpace)
    (.cat (.cls pyNotSpace) (.cat (.starCls pyNotSpace) (.starCls pyIsSpace)))

/-- `(.*\r?\n)` of `line_without_first_word_re`: `\r?` is the greedy
alternative of `\r` and the empty pattern. -/
def line_without_first_word_re_grp : RE :=
  .cat (.starCls pyDot)
    (.cat (.alt (.cls fun c => c == '\r') .eps) (.cls fun c => c == '\n'))

/-- `get_line_without_first_word_re(line)` from src/python_util.py
(lines 280-288). -/
def get_line_without_first_word_re (line : List Char) : List Char :=
  match reMatchGroup line_without_first_word_re_pre
      line_without_first_word_re_grp line with
  | some g => g
  | none => line

end PyUtil

namespace EnvVar

/-! ### src/env_variable.py -/

def IS_DEBUG_ENVIRON : String := "DEBUG"

def NO_COLOR_ENVIRON : String := "NO_COLOR"

/-- `os.environ.get(env, None)`: the process environment is an association
list from variable names to values (a dict: keys unique, first match). -/
def env_get (environ : List (String × String)) (env : String) : Option String :=
  (environ.find? fun kv => kv.1 == env).map fun kv => kv.2

/-- `check_env(env)` (src/env_variable.py lines 11-17). -/
def check_env (environ : List (String × String)) (env : String) : Option String :=
  env_get environ env

/-- `check_env_exists(env)` (lines 20-25): `env in os.environ`. -/
def check_env_exists (environ : List (String × String)) (env : String) : Bool :=
  (env_get environ env).isSome

/-- `check_env_exists_and_not_empty(env)` (lines 28-34). -/
def check_env_exists_and_not_empty (environ : List (String × String))
    (env : String) : Bool :=
  match env_get environ env with
  | none => false
  | some val => val.length != 0

/-- One character of Python's `str.isdigit`, restricted to the ASCII decimal
digits (the only digits `int()` below is applied to in this code). -/
def pyCharIsDigit (c : Char) : Bool := 48 ≤ c.toNat && c.toNat ≤ 57

/-- `val.isdigit()`: non-empty and every character a digit. -/
def pyIsDigitStr (val : String) : Bool :=
  val.length != 0 && val.data.all pyCharIsDigit

/-- `int(val)` for a string of decimal digits. -/
def pyInt (val : String) : Nat :=
  val.data.foldl (fun a c => a * 10 + (c.toNat - 48)) 0

/-- `check_env_true(env)` (lines 37-48). -/
def check_env_true (environ : List (String × String)) (env : String) : Bool :=
  match env_get environ env with
  | none => false
  | some val =>
    let is_digit := pyIsDigitStr val
    (is_digit && pyInt val != 0) || (!is_digit && val.length != 0)

/-- `os.environ[env] = val`: replace the first binding or append a new one. -/
def env_set : List (String × String) → String → String →
    List (String × String)
  | [], env, val => [(env, val)]
  | kv :: rest, env, val =>
    if kv.1 == env then (env, val) :: rest else kv :: env_set rest env val

/-- Module state of `env_variable.py`: the mutable process environment and
the memo tables `functools.cache` keeps for `is_debug` and `no_color`. -/
structure EnvState where
  environ : List (String × String)
  is_debug_cached : Option Bool
  no_color_cached : Option Bool

/-- `set_env(env, val)` (lines 51-63) for a string value: the previous value
of the variable and the new state. -/
def set_env (st : EnvState) (env val : String) : Option String × EnvState :=
  (env_get st.environ env, { st with environ := env_set st.environ env val })

/-- `is_debug()` (lines 66-72): `check_env_exists(IS_DEBUG_ENVIRON)` under
`functools.cache`: the memo table answers every call after the first. -/
def is_debug (st : EnvState) : Bool × EnvState :=
  match st.is_debug_cached with
  | some b => (b, st)
  | none =>
    let b := check_env_exists st.environ IS_DEBUG_ENVIRON
    (b, { st with is_debug_cached := some b })

/-- `no_color()` (lines 75-81), also under `functools.cache`. -/
def no_color (st : EnvState) : Bool × EnvState :=
  match st.no_color_cached with
  | some b => (b, st)
  | none =>
    let b := check_env_exists_and_not_empty st.environ NO_COLOR_ENVIRON
    (b, { st with no_color_cached := some b })

end EnvVar

namespace CPrint

/-! ### src/colored_print.py -/

/-- `ANSICompose.compose(*args)` (src/colored_print.py lines 24-26): the
numeric codes semicolon-joined inside `ESC[` ... `m` (an enum member prints
as its numeric value). -/
def compose (args : List String) : String :=
  "\x1b[" ++ String.intercalate ";" args ++ "m"

/-- `ANSIColors.RED` (line 88): `compose(ANSICompose.FORE_RED)`. -/
def ANSIColors_RED : String := compose [toString (31 : Nat)]

/-- `ANSIColors.ENDC` (line 98): `compose(ANSICompose.ENDC)`. -/
def ANSIColors_ENDC : String := compose [toString (0 : Nat)]

/-- `pprintf(ansi_color_str, arg)` (lines 122-129) for one positional
argument and default keyword arguments, as the text written to the output
stream; the module global `no_color` is passed explicitly.  When the flag is
clear the payload is printed with `end=""` into a `StringIO` buffer and the
buffer is wrapped between the color prefix and `ANSIColors.ENDC`. -/
def pprintf (no_color : Bool) (ansi_color_str : String) (arg : String) :
    String :=
  if no_color then arg ++ "\n"
  else ansi_color_str ++ arg ++ ANSIColors_ENDC ++ "\n"

/-- `color_settings(force_color)` (lines 13-15): the new value of the module
global `no_color`; the previous value is overwritten unconditionally. -/
def color_settings (force_color : Bool) (_no_color_global : Bool) : Bool :=
  force_color

end CPrint

namespace PyUtil

/-! ### src/python_util.py: display_options (lines 109-154) -/

/-- Python `str.strip()` over the whitespace class. -/
def pyStrip (s : String) : String :=
  ⟨((s.data.dropWhile pyIsSpace).reverse.dropWhile pyIsSpace).reverse⟩

/-- Python `str.lower()` for the ASCII range the option keys live in. -/
def pyLower (s : String) : String := ⟨s.data.map Char.toLower⟩

/-- Python `str.upper()` for the ASCII range the option keys live in. -/
def pyUpper (s : String) : String := ⟨s.data.map Char.toUpper⟩

/-- Python `str.islower()` for ASCII text: at least one cased character and
no upper-case one. -/
def pyIsLower (s : String) : Bool :=
  s.data.any (fun c => c.isAlpha) && s.data.all (fun c => !c.isUpper)

/-- `f"{s:<{w}s}"` (and `f"{s:{w}s}"`): left-justify to width `w`. -/
def pyLJust (s : String) (w : Nat) : String :=
  s ++ ⟨List.replicate (w - s.length) ' '⟩

def default_mark_str : String := "(default) "

/-- `option_list.keys()` in order. -/
def option_keys (option_list : List (String × String)) : List String :=
  option_list.map fun kv => kv.1

/-- `all(len(option) == 1 for option in option_list.keys())`. -/
def is_short_format (option_list : List (String × String)) : Bool :=
  (option_keys option_list).all fun o => o.length == 1

/-- `max(len(option) for option in option_list.keys())` (the keys are
non-empty once the asserts of `display_options` pass). -/
def max_opt_len (option_list : List (String × String)) : Nat :=
  (option_keys option_list).foldl (fun m o => max m o.length) 0

/-- One entry of `display_option_list`: the default key is upper-cased in
short format and bracketed in long format. -/
def display_option (short : Bool) (default_option option : String) : String :=
  if option != default_option then option
  else if short then pyUpper option else "[" ++ option ++ "]"

/-- `display_options_str`: the displayed option names joined by the
delimiter (empty for short format, `/` otherwise). -/
def display_options_str (option_list : List (String × String))
    (default_option : String) : String :=
  String.intercalate (if is_short_format option_list then "" else "/")
    ((option_keys option_list).map
      (display_option (is_short_format option_list) default_option))

/-- The legend lines the `print_long_descriptions` branch appends. -/
def long_description_lines (option_list : List (String × String))
    (default_option : String) : String :=
  option_list.foldl
    (fun acc kv =>
      let is_default := kv.1 == default_option
      let default_str := if is_default then default_mark_str else ""
      let option :=
        if is_default then
          (if is_short_format option_list then pyUpper kv.1
            else "[" ++ kv.1 ++ "]")
        else kv.1
      acc ++ "\n" ++ pyLJust default_str default_mark_str.length ++
        pyLJust option (max_opt_len option_list) ++ ": " ++ kv.2)
    ""

/-- The first prompt `display_options` builds before its read loop
(`message` is the caller's message after `.format`). -/
def display_options_message (option_list : List (String × String))
    (default_option : String) (print_long_descriptions : Bool)
    (message : String) : String :=
  (message ++
      (if print_long_descriptions then
          long_description_lines option_list default_option ++ "\n  Selection"
        else "")) ++
    " (" ++ display_options_str option_list default_option ++ ") ? "

/-- `repeat_message`: the shortened prompt used after an invalid selection. -/
def display_options_repeat_message (option_list : List (String × String))
    (default_option : String) : String :=
  "Invalid selection (" ++ display_options_str option_list default_option ++
    ") ? "

/-- The `while True` loop of `display_options`: the input stream is the list
of lines `input()` will return; the result records the prompts shown, in
order, and the selection (`none` when the stream is exhausted, where
`input()` raises `EOFError`). -/
def display_options_loop (keys : List String) (default_option : String)
    (repeat_message : String) :
    String → List String → List String × Option String
  | message, [] => ([message], none)
  | message, sel :: rest =>
    let selection := pyLower (pyStrip sel)
    if selection.length == 0 then ([message], some default_option)
    else if keys.contains selection then ([message], some selection)
    else
      let r := display_options_loop keys default_option repeat_message
        repeat_message rest
      (message :: r.1, r.2)

/-- `display_options(option_list, default_option, print_long_descriptions,
message)` (src/python_util.py lines 109-154) with an explicit input stream:
`none` models a failing `assert` (`AssertionError`). -/
def display_options (option_list : List (String × String))
    (default_option : String) (print_long_descriptions : Bool)
    (message : String) (inputs : List String) :
    Option (List String × Option String) :=
  if !(option_keys option_list).contains default_option then none
  else if !(option_keys option_list).all pyIsLower then none
  else
    some (display_options_loop (option_keys option_list) default_option
      (display_options_repeat_message option_list default_option)
      (display_options_message option_list default_option
        print_long_descriptions message)
      inputs)

/-! ### src/python_util.py: lock files (lines 165-190) -/

/-- Diagnostic data of the `OSError` a failed `fcntl.lockf` raises: the code
`printerr`s the path with `e.errno` and `e.strerror`, then re-raises. -/
structure LockError where
  errno : Nat
  message : String
  deriving DecidableEq

/-- `errno.EAGAIN`, the code a held `LOCK_NB | LOCK_EX` lock fails with. -/
def EAGAIN : Nat := 11

/-- The OS advisory-lock table for lock files: which paths are exclusively
locked, plus a counter yielding fresh descriptors. -/
structure LockState where
  locked : List String
  nextFd : Nat
  deriving DecidableEq

/-- A successfully locked open file (`locked_file_descriptor`). -/
structure LockHandle where
  path : String
  fd : Nat
  deriving DecidableEq

/-- `acquireLockFile(lock_file)` (src/python_util.py lines 165-182) over the
advisory-lock state: `open(lock_file, "w+")` yields a fresh descriptor and
`fcntl.lockf(fd, LOCK_NB | LOCK_EX)` — modelled for independent handles,
the OS side being outside the repository — fails immediately with `EAGAIN`
when the path is already locked; the function reports the path and the OS
error code and propagates the error without retrying. -/
def acquireLockFile (lock_file : String) (st : LockState) :
    Except LockError (LockHandle × LockState) :=
  if st.locked.contains lock_file then
    .error
      { errno := EAGAIN,
        message := "Could not get lock " ++ lock_file ++ " - " ++
          toString EAGAIN ++ ": Resource temporarily unavailable.\n" ++
          "Unable to acquire the lock, is another process using it? " }
  else
    .ok
      ({ path := lock_file, fd := st.nextFd },
        { locked := lock_file :: st.locked, nextFd := st.nextFd + 1 })

/-- `releaseLockFile(locked_file_descriptor)` (lines 185-190): `close()`
drops the advisory lock the descriptor holds. -/
def releaseLockFile (h : LockHandle) (st : LockState) : LockState :=
  { st with locked := st.locked.erase h.path }

/-! ### src/python_util.py: check_dependency (lines 68-83) -/

/-- The ambient file system: the truth of the `os.path` / `os.access` tests
`dependency_check_funcs` uses, and `os.path.realpath`. -/
structure FileSystem where
  isfile : String → Bool
  isdir : String → Bool
  access_F : String → Bool
  access_R : String → Bool
  access_W : String → Bool
  access_X : String → Bool
  realpath : String → String

/-- `dependency_check_funcs` (src/python_util.py lines 68-75). -/
def dependency_check_funcs (fs : FileSystem) :
    List (String × (String → Bool)) :=
  [("f", fs.isfile), ("d", fs.isdir), ("e", fs.access_F), ("r", fs.access_R),
    ("w", fs.access_W), ("x", fs.access_X)]

/-- `check_dependency(test_type, dependency)` (lines 78-83): an unknown test
type fails the `assert` (an `AssertionError`, modelled as `.error`); a known
one returns `os.path.realpath(dependency)` when its test passes, and the
implicit `None` otherwise. -/
def check_dependency (fs : FileSystem) (test_type dependency : String) :
    Except String (Option String) :=
  match (dependency_check_funcs fs).find? fun kv => kv.1 == test_type with
  | none => .error ("Invalid type string " ++ test_type)
  | some kv =>
    .ok (if kv.2 dependency then some (fs.realpath dependency) else none)

end PyUtil
namespace PyUtil

/-! ### Lemmas: the direct scans -/

theorem pyIdx_natCast (n i : Nat) : pyIdx n (i : Int) = min i n := by
  simp [pyIdx]

theorem pySliceFrom_zero (s : List Char) : pySliceFrom s 0 = s := by
  simp [pySliceFrom, pyIdx]

theorem pySliceFrom_append (A cs : List Char) :
    pySliceFrom (A ++ cs) (A.length : Int) = cs := by
  rw [pySliceFrom, pyIdx_natCast]
  rw [List.length_append, min_eq_left (Nat.le_add_right _ _), List.drop_left]

theorem pySlice_zero_append (A cs : List Char) :
    pySlice (A ++ cs) 0 (A.length : Int) = A ++ List.take 0 cs := by
  rw [pySlice, pyIdx_natCast, List.length_append,
    min_eq_left (Nat.le_add_right _ _)]
  simp [pyIdx, List.take_left]

theorem get_first_word_go_spec : ∀ (cs A : List Char),
    get_first_word_go (A ++ cs) cs A.length (-1) =
      A ++ cs.takeWhile pyNotSpace
  | [], A => by
    rw [get_first_word_go]
    norm_num [pySliceFrom_zero]
  | c :: t, A => by
    rw [get_first_word_go]
    by_cases hc : pyIsSpace c
    · rw [if_pos hc, if_neg (by norm_num)]
      have h0 : (-1 : Int) + 1 = 0 := by norm_num
      rw [h0, List.takeWhile_cons]
      have hns : pyNotSpace c = false := by simp [pyNotSpace, hc]
      rw [hns]
      simpa using pySlice_zero_append A (c :: t)
    · rw [if_neg hc, if_neg (by norm_num)]
      have hns : pyNotSpace c = true := by simp [pyNotSpace, hc]
      have h2 := get_first_word_go_spec t (A ++ [c])
      rw [List.append_assoc] at h2
      simp only [List.singleton_append, List.length_append, List.length_cons,
        List.length_nil, Nat.zero_add] at h2
      rw [List.takeWhile_cons, hns]
      simpa using h2

theorem get_first_word_eq_takeWhile (line : List Char) :
    get_first_word line = line.takeWhile pyNotSpace := by
  simpa using get_first_word_go_spec line []

end PyUtil
namespace PyUtil

/-! ### Lemmas: the backtracking engine -/

theorem dropWhile_head_false (p : Char → Bool) :
    ∀ (l : List Char) {c : Char} {cs : List Char},
      l.dropWhile p = c :: cs → p c = false
  | [], c, cs, h => by simp [List.dropWhile] at h
  | a :: t, c, cs, h => by
    by_cases hp : p a
    · rw [List.dropWhile_cons, if_pos hp] at h
      exact dropWhile_head_false p t h
    · rw [List.dropWhile_cons, if_neg hp] at h
      cases h
      simpa using hp

/-- When the continuation refuses every position whose head the class still
matches, the greedy star acts as `dropWhile`. -/
theorem starClsMatch_eq_of_reject (p : Char → Bool)
    (k : List Char → Option (List Char))
    (hk : ∀ c cs, p c = true → k (c :: cs) = none) :
    ∀ s : List Char, starClsMatch p s k = k (s.dropWhile p)
  | [] => rfl
  | c :: t => by
    by_cases hc : p c
    · rw [starClsMatch, if_pos hc, starClsMatch_eq_of_reject p k hk t,
        hk c t hc, List.dropWhile_cons, if_pos hc]
      cases k (t.dropWhile p) <;> rfl
    · rw [starClsMatch, if_neg hc, List.dropWhile_cons, if_neg hc]

/-- When the continuation accepts the greedy-maximal position, the greedy
star commits to it. -/
theorem starClsMatch_eq_of_max (p : Char → Bool)
    (k : List Char → Option (List Char)) (v : List Char) :
    ∀ s : List Char, k (s.dropWhile p) = some v →
      starClsMatch p s k = some v
  | [], hk => hk
  | c :: t, hk => by
    by_cases hc : p c
    · rw [List.dropWhile_cons, if_pos hc] at hk
      rw [starClsMatch, if_pos hc, starClsMatch_eq_of_max p k v t hk]
      rfl
    · rw [List.dropWhile_cons, if_neg hc] at hk
      rw [starClsMatch, if_neg hc, hk]

/-- `(\S+)` with an always-accepting continuation: the maximal non-blank
run, by remainder. -/
theorem matchC_first_word_grp_cons (c : Char) (t : List Char)
    (hc : pyNotSpace c = true) :
    matchC first_word_re_grp (c :: t) some =
      some (t.dropWhile pyNotSpace) := by
  rw [first_word_re_grp, matchC, matchC, if_pos hc, matchC]
  exact starClsMatch_eq_of_max _ _ _ t rfl

theorem get_first_word_re_char (line : List Char) :
    get_first_word_re line =
      if line.dropWhile pyIsSpace = [] then line
      else (line.dropWhile pyIsSpace).takeWhile pyNotSpace := by
  rw [get_first_word_re, reMatchGroup, first_word_re_pre, matchC]
  rw [starClsMatch_eq_of_reject pyIsSpace _ ?hk line]
  case hk =>
    intro c cs hc
    simp [first_word_re_grp, matchC, pyNotSpace, hc]
  rcases hd : line.dropWhile pyIsSpace with _ | ⟨c, t⟩
  · rfl
  · have hcf : pyIsSpace c = false := dropWhile_head_false pyIsSpace line hd
    have hcn : pyNotSpace c = true := by simp [pyNotSpace, hcf]
    rw [matchC_first_word_grp_cons c t hcn, if_neg (List.cons_ne_nil c t)]
    show (c :: t).take ((c :: t).length - (t.dropWhile pyNotSpace).length) =
      (c :: t).takeWhile pyNotSpace
    have hlen : (t.takeWhile pyNotSpace).length +
        (t.dropWhile pyNotSpace).length = t.length := by
      conv_rhs => rw [← List.takeWhile_append_dropWhile (p := pyNotSpace) (l := t)]
      rw [List.length_append]
    have harith : (c :: t).length - (t.dropWhile pyNotSpace).length =
        (t.takeWhile pyNotSpace).length + 1 := by
      simp only [List.length_cons]
      omega
    have hbase : t.take (t.takeWhile pyNotSpace).length = t.takeWhile pyNotSpace := by
      have h2 := @List.take_left' Char (t.takeWhile pyNotSpace)
        (t.dropWhile pyNotSpace) _ rfl
      rwa [List.takeWhile_append_dropWhile] at h2
    have htake : (c :: t).take ((t.takeWhile pyNotSpace).length + 1) =
        c :: t.takeWhile pyNotSpace := by
      rw [List.take_succ_cons, hbase]
    rw [harith, htake, List.takeWhile_cons, hcn]
    simp

end PyUtil
namespace PyUtil

/-- C1: the direct-scan and the pattern-based first-word implementations
agree exactly on the lines that are empty or whose first character is not
whitespace; the claim's equality fails on every non-empty line that starts
with whitespace (leading-whitespace and all-whitespace lines). -/
theorem C1_first_word_equivalence (L : List Char) :
    get_first_word L = get_first_word_re L ↔
      ∀ c, L.head? = some c → pyIsSpace c = false := by
  rw [get_first_word_eq_takeWhile, get_first_word_re_char]
  cases L with
  | nil => simp
  | cons c t =>
    simp only [List.head?_cons, Option.some.injEq]
    by_cases hc : pyIsSpace c
    · have hcn : pyNotSpace c = false := by simp [pyNotSpace, hc]
      rw [List.takeWhile_cons, hcn]
      simp only [Bool.false_eq_true, if_false]
      constructor
      · intro h
        exfalso
        rcases hd : (c :: t).dropWhile pyIsSpace with _ | ⟨d, ds⟩
        · rw [hd] at h
          simp at h
        · rw [hd, if_neg (List.cons_ne_nil d ds)] at h
          have hdf : pyIsSpace d = false := dropWhile_head_false _ _ hd
          have hdn : pyNotSpace d = true := by simp [pyNotSpace, hdf]
          rw [List.takeWhile_cons, hdn] at h
          simp at h
      · intro h
        exact absurd (h c rfl) (by simp [hc])
    · have hd : (c :: t).dropWhile pyIsSpace = c :: t := by
        rw [List.dropWhile_cons, if_neg hc]
      rw [hd, if_neg (List.cons_ne_nil c t)]
      constructor
      · intro _ x hx
        rw [← hx]
        exact Bool.not_eq_true _ ▸ by simpa using hc
      · intro _
        rfl

/-- C1 as stated is false: on the line `" a"` (leading whitespace) the scan
returns the empty string and the pattern returns `"a"`. -/
theorem C1_counterexample :
    get_first_word [' ', 'a'] = [] ∧ get_first_word_re [' ', 'a'] = ['a'] ∧
      get_first_word [' ', 'a'] ≠ get_first_word_re [' ', 'a'] := by decide

end PyUtil
namespace PyUtil

/-! ### Lemmas: the remainder scan, phase by phase.
Phase 3: a whitespace run after the first token has been seen
(`leading_space_end ≥ -1`, `leading_word_end ≥ 0`); the loop skips
whitespace and returns the suffix at the next non-blank character. -/

theorem glw_go_phase3 : ∀ (cs A : List Char) (lse lwe : Int),
    -1 ≤ lse → 0 ≤ lwe → 1 ≤ A.length →
    get_line_without_first_word_go (A ++ cs) cs A.length lse lwe =
      cs.dropWhile pyIsSpace
  | [], _, _, _, _, _, _ => by
    rw [get_line_without_first_word_go]
    rfl
  | c :: t, A, lse, lwe, h1, h2, hA => by
    rw [get_line_without_first_word_go]
    by_cases hc : pyIsSpace c
    · rw [if_pos hc, if_pos h1]
      have h3 := glw_go_phase3 t (A ++ [c]) lse ((A.length : Int) - 1)
        h1 (by omega) (by simp)
      rw [List.append_assoc] at h3
      simp only [List.singleton_append, List.length_append, List.length_cons,
        List.length_nil, Nat.zero_add] at h3
      rw [List.dropWhile_cons, if_pos hc]
      exact h3
    · rw [if_neg hc, if_neg (by omega), if_pos h2, List.dropWhile_cons,
        if_neg hc]
      exact pySliceFrom_append A (c :: t)

/-- Phase 2: inside the first token (`leading_space_end ≥ -1`, and at least
one character already consumed), `leading_word_end` still `-1`. -/
theorem glw_go_phase2 : ∀ (cs A : List Char) (lse : Int),
    -1 ≤ lse → 1 ≤ A.length →
    get_line_without_first_word_go (A ++ cs) cs A.length lse (-1) =
      (cs.dropWhile pyNotSpace).dropWhile pyIsSpace
  | [], _, _, _, _ => by
    rw [get_line_without_first_word_go]
    rfl
  | c :: t, A, lse, h1, hA => by
    rw [get_line_without_first_word_go]
    by_cases hc : pyIsSpace c
    · rw [if_pos hc, if_pos h1]
      have hcn : pyNotSpace c = false := by simp [pyNotSpace, hc]
      have h3 := glw_go_phase3 t (A ++ [c]) lse ((A.length : Int) - 1)
        h1 (by omega) (by simp)
      rw [List.append_assoc] at h3
      simp only [List.singleton_append, List.length_append, List.length_cons,
        List.length_nil, Nat.zero_add] at h3
      rw [List.dropWhile_cons, hcn, if_neg (by simp), List.dropWhile_cons,
        if_pos hc]
      exact h3
    · rw [if_neg hc, if_neg (by omega), if_neg (by norm_num)]
      have hcn : pyNotSpace c = true := by simp [pyNotSpace, hc]
      have h3 := glw_go_phase2 t (A ++ [c]) lse h1 (by simp)
      rw [List.append_assoc] at h3
      simp only [List.singleton_append, List.length_append, List.length_cons,
        List.length_nil, Nat.zero_add] at h3
      rw [List.dropWhile_cons, hcn, if_pos rfl]
      exact h3

/-- Phase 1: skipping leading whitespace (`leading_space_end = -2`). -/
theorem glw_go_phase1 : ∀ (cs A : List Char),
    get_line_without_first_word_go (A ++ cs) cs A.length (-2) (-1) =
      ((cs.dropWhile pyIsSpace).dropWhile pyNotSpace).dropWhile pyIsSpace
  | [], _ => by
    rw [get_line_without_first_word_go]
    rfl
  | c :: t, A => by
    rw [get_line_without_first_word_go]
    by_cases hc : pyIsSpace c
    · rw [if_pos hc, if_neg (by norm_num)]
      have h3 := glw_go_phase1 t (A ++ [c])
      rw [List.append_assoc] at h3
      simp only [List.singleton_append, List.length_append, List.length_cons,
        List.length_nil, Nat.zero_add] at h3
      rw [List.dropWhile_cons, if_pos hc]
      exact h3
    · rw [if_neg hc, if_pos (by norm_num)]
      have hcn : pyNotSpace c = true := by simp [pyNotSpace, hc]
      have h3 := glw_go_phase2 t (A ++ [c]) ((A.length : Int) - 1)
        (by omega) (by simp)
      rw [List.append_assoc] at h3
      simp only [List.singleton_append, List.length_append, List.length_cons,
        List.length_nil, Nat.zero_add] at h3
      rw [List.dropWhile_cons, if_neg hc, List.dropWhile_cons, hcn,
        if_pos rfl]
      exact h3

/-- The remainder scan strips the leading whitespace, the first token and
the whitespace after it, and returns whatever follows (so the empty string
when there is no second token). -/
theorem get_line_without_first_word_char (L : List Char) :
    get_line_without_first_word L =
      ((L.dropWhile pyIsSpace).dropWhile pyNotSpace).dropWhile pyIsSpace := by
  simpa using glw_go_phase1 L []

end PyUtil
namespace PyUtil

/-! ### Lemmas: the remainder pattern on its success inputs -/

theorem matchC_cat_eq (a b : RE) (s : List Char)
    (k : List Char → Option (List Char)) :
    matchC (.cat a b) s k = matchC a s fun s1 => matchC b s1 k := rfl

theorem matchC_starCls_eq (p : Char → Bool) (s : List Char)
    (k : List Char → Option (List Char)) :
    matchC (.starCls p) s k = starClsMatch p s k := rfl

theorem matchC_cls_cons_eq (p : Char → Bool) (c : Char) (cs : List Char)
    (k : List Char → Option (List Char)) :
    matchC (.cls p) (c :: cs) k = if p c then k cs else none := rfl

theorem dropWhile_append_of_all (p : Char → Bool) :
    ∀ (l1 l2 : List Char), (∀ x ∈ l1, p x = true) →
      (l1 ++ l2).dropWhile p = l2.dropWhile p
  | [], _, _ => rfl
  | a :: t, l2, h => by
    rw [List.cons_append, List.dropWhile_cons,
      if_pos (h a (List.mem_cons_self a t))]
    exact dropWhile_append_of_all p t l2 fun x hx =>
      h x (List.mem_cons_of_mem a hx)

/-- On a line whose remainder-suffix is newline-free text closed by a single
final newline, the pattern `^\s*\S+\s*(.*\r?\n)` matches with every greedy
step committing at its maximum, and the group captures exactly that
suffix. -/
theorem glw_re_success (L body : List Char)
    (h1 : L.dropWhile pyIsSpace ≠ [])
    (h2 : ((L.dropWhile pyIsSpace).dropWhile pyNotSpace).dropWhile pyIsSpace
        = body ++ ['\n'])
    (h3 : '\n' ∉ body) :
    get_line_without_first_word_re L = body ++ ['\n'] := by
  rcases hd : L.dropWhile pyIsSpace with _ | ⟨c, t⟩
  · exact absurd hd h1
  have hcf : pyIsSpace c = false := dropWhile_head_false pyIsSpace L hd
  have hcn : pyNotSpace c = true := by simp [pyNotSpace, hcf]
  have hm2 : (t.dropWhile pyNotSpace).dropWhile pyIsSpace = body ++ ['\n'] := by
    rw [hd, List.dropWhile_cons, hcn, if_pos rfl] at h2
    exact h2
  have hbodyall : ∀ x ∈ body, pyDot x = true := by
    intro x hx
    rw [pyDot]
    simp only [bne_iff_ne, ne_eq]
    intro hxe
    exact h3 (hxe ▸ hx)
  have hstepA : matchC line_without_first_word_re_grp (body ++ ['\n']) some
      = some [] := by
    rw [line_without_first_word_re_grp, matchC_cat_eq, matchC_starCls_eq]
    apply starClsMatch_eq_of_max
    rw [dropWhile_append_of_all pyDot body ['\n'] hbodyall]
    rfl
  have hstepB : (matchC line_without_first_word_re_grp (body ++ ['\n'])
        some).map
      (fun r2 => (body ++ ['\n']).take ((body ++ ['\n']).length - r2.length))
      = some (body ++ ['\n']) := by
    rw [hstepA]
    simp
  have hstepC : starClsMatch pyIsSpace (t.dropWhile pyNotSpace)
      (fun r => (matchC line_without_first_word_re_grp r some).map
        fun r2 => r.take (r.length - r2.length)) = some (body ++ ['\n']) := by
    apply starClsMatch_eq_of_max
    rw [hm2]
    exact hstepB
  have hstepD : starClsMatch pyNotSpace t
      (fun s3 => starClsMatch pyIsSpace s3
        (fun r => (matchC line_without_first_word_re_grp r some).map
          fun r2 => r.take (r.length - r2.length))) = some (body ++ ['\n']) := by
    apply starClsMatch_eq_of_max
    exact hstepC
  have hrest : matchC (RE.cat (RE.cls pyNotSpace)
      (RE.cat (RE.starCls pyNotSpace) (RE.starCls pyIsSpace))) (c :: t)
      (fun r => (matchC line_without_first_word_re_grp r some).map
        fun r2 => r.take (r.length - r2.length)) = some (body ++ ['\n']) := by
    rw [matchC_cat_eq, matchC_cls_cons_eq, if_pos hcn]
    exact hstepD
  have hmain : reMatchGroup line_without_first_word_re_pre
      line_without_first_word_re_grp L = some (body ++ ['\n']) := by
    rw [reMatchGroup, line_without_first_word_re_pre, matchC_cat_eq,
      matchC_starCls_eq]
    rw [starClsMatch_eq_of_reject pyIsSpace _ ?hk L, hd]
    case hk =>
      intro x xs hx
      simp [matchC, pyNotSpace, hx]
    exact hrest
  rw [get_line_without_first_word_re, hmain]

/-- C2: the two remainder implementations agree on — and both return the
remainder-suffix of — every line that has a second whitespace-delimited
token and whose suffix from that second token on is newline-free text closed
by one final `\n` (so a trailing `\r\n`, with the `\r` inside `body`, is
preserved by both). -/
theorem C2_remainder_equivalence (L body : List Char)
    (h1 : L.dropWhile pyIsSpace ≠ [])
    (h2 : ((L.dropWhile pyIsSpace).dropWhile pyNotSpace).dropWhile pyIsSpace
        = body ++ ['\n'])
    (h3 : '\n' ∉ body) :
    get_line_without_first_word L = get_line_without_first_word_re L ∧
      get_line_without_first_word_re L = body ++ ['\n'] := by
  have hre := glw_re_success L body h1 h2 h3
  refine ⟨?_, hre⟩
  rw [get_line_without_first_word_char, h2, hre]

/-- C2's theorem applied to the concrete line `"ab cd\r\n"`: the hypotheses
hold and both implementations return `"cd\r\n"`, `\r\n` preserved. -/
theorem C2_remainder_equivalence_witness :
    (['a', 'b', ' ', 'c', 'd', '\r', '\n'].dropWhile pyIsSpace ≠ [] ∧
      ((['a', 'b', ' ', 'c', 'd', '\r', '\n'].dropWhile
            pyIsSpace).dropWhile pyNotSpace).dropWhile pyIsSpace =
        ['c', 'd', '\r'] ++ ['\n'] ∧
      '\n' ∉ ['c', 'd', '\r']) ∧
    (get_line_without_first_word ['a', 'b', ' ', 'c', 'd', '\r', '\n'] =
        get_line_without_first_word_re ['a', 'b', ' ', 'c', 'd', '\r', '\n'] ∧
      get_line_without_first_word_re ['a', 'b', ' ', 'c', 'd', '\r', '\n'] =
        ['c', 'd', '\r'] ++ ['\n']) :=
  ⟨⟨by decide, by decide, by decide⟩,
    C2_remainder_equivalence ['a', 'b', ' ', 'c', 'd', '\r', '\n']
      ['c', 'd', '\r'] (by decide) (by decide) (by decide)⟩

/-- C2 as stated is false: on the `\r\n`-terminated line `"ab\r\n"` the scan
returns the empty string while the pattern returns `"\n"` (which also drops
the `\r` of the trailing `\r\n`). -/
theorem C2_counterexample :
    get_line_without_first_word ['a', 'b', '\r', '\n'] = [] ∧
      get_line_without_first_word_re ['a', 'b', '\r', '\n'] = ['\n'] ∧
      get_line_without_first_word ['a', 'b', '\r', '\n'] ≠
        get_line_without_first_word_re ['a', 'b', '\r', '\n'] := by decide

end PyUtil
namespace EnvVar

/-! ### Lemmas: env_variable.py -/

theorem pyInt_foldl_eq_zero : ∀ (l : List Char) (a : Nat),
    (∀ c ∈ l, pyCharIsDigit c = true) →
    (l.foldl (fun a c => a * 10 + (c.toNat - 48)) a = 0 ↔
      (a = 0 ∧ ∀ c ∈ l, c = '0'))
  | [], a, _ => by simp
  | c :: t, a, h => by
    rw [List.foldl_cons]
    have hc := h c (List.mem_cons_self c t)
    rw [pyCharIsDigit] at hc
    simp only [Bool.and_eq_true, decide_eq_true_eq] at hc
    have ih := pyInt_foldl_eq_zero t (a * 10 + (c.toNat - 48))
      fun x hx => h x (List.mem_cons_of_mem c hx)
    rw [ih]
    have hofn : Char.ofNat 48 = '0' := by decide
    constructor
    · rintro ⟨hz, hall⟩
      have ha : a = 0 ∧ c.toNat = 48 := by omega
      have hc0 : c = '0' := by
        have h48 : Char.ofNat c.toNat = Char.ofNat 48 := by rw [ha.2]
        rw [Char.ofNat_toNat, hofn] at h48
        exact h48
      refine ⟨ha.1, fun x hx => ?_⟩
      rcases List.mem_cons.mp hx with rfl | hx
      · exact hc0
      · exact hall x hx
    · rintro ⟨rfl, hall⟩
      have hc0 : c = '0' := hall c (List.mem_cons_self c t)
      refine ⟨by rw [hc0]; decide, fun x hx => hall x (List.mem_cons_of_mem c hx)⟩

theorem string_ne_empty_iff_length (v : String) : v ≠ "" ↔ v.length ≠ 0 := by
  constructor
  · intro h hlen
    exact h (String.ext (List.length_eq_zero.mp hlen))
  · intro h he
    exact h (by rw [he]; rfl)

/-- C3: `check_env_true` holds exactly of a set variable whose value is a
non-zero integer string or a non-empty non-numeric string; in particular it
is true for `"5"` and `"abc"`, false for `"0"`, for the empty value and for
an unset variable. -/
theorem C3_check_env_true_truthiness :
    (∀ (environ : List (String × String)) (env : String),
      check_env_true environ env = true ↔
        ∃ v, env_get environ env = some v ∧ v ≠ "" ∧
          (v.data.all pyCharIsDigit = true →
            v.data.any (fun c => c != '0') = true)) ∧
    check_env_true [("V", "5")] "V" = true ∧
    check_env_true [("V", "0")] "V" = false ∧
    check_env_true [("V", "abc")] "V" = true ∧
    check_env_true [] "V" = false ∧
    check_env_true [("V", "")] "V" = false := by
  refine ⟨?_, by decide, by decide, by decide, by decide, by decide⟩
  intro environ env
  rw [check_env_true]
  rcases hg : env_get environ env with _ | v
  · simp
  · simp only [hg, Option.some.injEq]
    constructor
    · intro h
      refine ⟨v, rfl, ?_, ?_⟩
      · -- non-empty in both branches
        rw [string_ne_empty_iff_length]
        intro hlen
        rw [pyIsDigitStr] at h
        simp only [hlen] at h
        simp at h
      · intro hall
        -- the value is all digits and non-empty, so the digit branch fired
        by_cases hlen : v.length = 0
        · rw [pyIsDigitStr] at h
          simp only [hlen] at h
          simp at h
        · have hdig : pyIsDigitStr v = true := by
            rw [pyIsDigitStr, hall]
            simp [hlen]
          rw [hdig] at h
          simp only [Bool.true_and, Bool.not_true, Bool.false_and,
            Bool.or_false] at h
          have hne : pyInt v ≠ 0 := by
            intro h0
            rw [h0] at h
            simp at h
          rw [pyInt] at hne
          have hiff := pyInt_foldl_eq_zero v.data 0
            (fun c hc => by
              have := List.all_eq_true.mp hall c hc
              exact this)
          rw [List.any_eq_true]
          by_contra hno
          push_neg at hno
          exact hne (hiff.mpr ⟨rfl, fun c hc => by
            have := hno c hc
            simpa [bne_iff_ne] using this⟩)
    · rintro ⟨w, hw, hne, himp⟩
      cases hw
      by_cases hdig : pyIsDigitStr v = true
      · rw [hdig]
        simp only [Bool.true_and, Bool.not_true, Bool.false_and,
          Bool.or_false]
        have hall : v.data.all pyCharIsDigit = true := by
          rw [pyIsDigitStr] at hdig
          simp only [Bool.and_eq_true] at hdig
          exact hdig.2
        have hany := himp hall
        rw [List.any_eq_true] at hany
        obtain ⟨c, hc, hcne⟩ := hany
        rw [bne_iff_ne] at hcne
        have hiff := pyInt_foldl_eq_zero v.data 0
          (fun x hx => List.all_eq_true.mp hall x hx)
        rw [pyInt, bne_iff_ne]
        intro h0
        exact hcne ((hiff.mp h0).2 c hc)
      · rw [Bool.not_eq_true] at hdig
        rw [hdig]
        simp only [Bool.false_and, Bool.not_false, Bool.true_and,
          Bool.false_or]
        rw [string_ne_empty_iff_length] at hne
        simp [hne]

/-- C4: once computed, the cached `is_debug` / `no_color` answers survive
any later mutation of the environment — wholesale replacement as well as a
`set_env` — because `functools.cache` answers from the memo table. -/
theorem C4_cached_flags_consistency (st : EnvState)
    (env2 : List (String × String)) (k v : String) :
    (is_debug { (is_debug st).2 with environ := env2 }).1 = (is_debug st).1 ∧
    (no_color { (no_color st).2 with environ := env2 }).1 = (no_color st).1 ∧
    (is_debug (set_env (is_debug st).2 k v).2).1 = (is_debug st).1 ∧
    (no_color (set_env (no_color st).2 k v).2).1 = (no_color st).1 := by
  rcases st with ⟨e, dc, nc⟩
  cases dc <;> cases nc <;>
    simp [is_debug, no_color, set_env]

end EnvVar
namespace CPrint

/-- C5: with the suppression flag set `pprintf` emits the payload unchanged
(plus the `print` newline); with it clear the payload is wrapped in an
escape sequence opening with `ESC[` and closed by the reset code
`ESC[0m`. -/
theorem C5_pprintf_wrapping (c s : String) (h : ∃ c2, c = "\x1b[" ++ c2) :
    pprintf true c s = s ++ "\n" ∧
    pprintf false c s = c ++ s ++ ANSIColors_ENDC ++ "\n" ∧
    (∃ r, pprintf false c s = "\x1b[" ++ r) ∧
    (∃ w, pprintf false c s = w ++ ("\x1b[0m" ++ "\n")) := by
  obtain ⟨c2, rfl⟩ := h
  have hend : ANSIColors_ENDC = "\x1b[0m" := by decide
  refine ⟨rfl, rfl, ⟨c2 ++ s ++ ANSIColors_ENDC ++ "\n", ?_⟩,
    ⟨("\x1b[" ++ c2) ++ s, ?_⟩⟩
  · rw [pprintf]
    simp [String.append_assoc]
  · rw [pprintf, hend]
    simp [String.append_assoc]

/-- C5's theorem at `ANSIColors.RED` and payload `"hi"`: the hypothesis
holds of the composed color string and the wrapping follows. -/
theorem C5_pprintf_wrapping_witness :
    (∃ c2, ANSIColors_RED = "\x1b[" ++ c2) ∧
    (pprintf true ANSIColors_RED "hi" = "hi" ++ "\n" ∧
      pprintf false ANSIColors_RED "hi" =
        ANSIColors_RED ++ "hi" ++ ANSIColors_ENDC ++ "\n" ∧
      (∃ r, pprintf false ANSIColors_RED "hi" = "\x1b[" ++ r) ∧
      (∃ w, pprintf false ANSIColors_RED "hi" = w ++ ("\x1b[0m" ++ "\n"))) :=
  ⟨⟨"31m", by decide⟩,
    C5_pprintf_wrapping ANSIColors_RED "hi" ⟨"31m", by decide⟩⟩

/-- C6: `pprintf` never consults `isatty` — the embedded function has no
output-stream input at all — so with suppression disabled it emits the
escape-wrapped payload, not the plain payload, whatever the destination. -/
theorem C6_pprintf_ignores_stream :
    pprintf false ANSIColors_RED "hi" = "\x1b[31mhi\x1b[0m\n" ∧
    pprintf false ANSIColors_RED "hi" ≠ "hi" ++ "\n" ∧
    pprintf true ANSIColors_RED "hi" = "hi" ++ "\n" := by decide

/-- C10: `color_settings(force_color=b)` stores `b` itself into the global
suppression flag `no_color`, so `color_settings(True)` makes `pprintf` print
plain and `color_settings(False)` makes it wrap in color codes. -/
theorem C10_color_settings_sets_flag (b g : Bool) (c s : String) :
    color_settings b g = b ∧
    pprintf (color_settings true g) c s = s ++ "\n" ∧
    pprintf (color_settings false g) c s =
      c ++ s ++ ANSIColors_ENDC ++ "\n" := by
  refine ⟨rfl, ?_, ?_⟩ <;> simp [color_settings, pprintf]

end CPrint

namespace PyUtil

/-- C8: acquiring a free path succeeds; while it is held a second
independent acquire on the same path fails at once with an `OSError`
carrying `EAGAIN` and a report naming the path; after the holder releases,
a further acquire succeeds again. -/
theorem C8_lock_exclusion (st : LockState) (p : String)
    (h : st.locked.contains p = false) :
    ∃ h1 st1,
      acquireLockFile p st = .ok (h1, st1) ∧
      acquireLockFile p st1 = .error
        { errno := EAGAIN,
          message := "Could not get lock " ++ p ++ " - " ++
            toString EAGAIN ++ ": Resource temporarily unavailable.\n" ++
            "Unable to acquire the lock, is another process using it? " } ∧
      (∃ h2 st2,
        acquireLockFile p (releaseLockFile h1 st1) = .ok (h2, st2)) := by
  have hnc : ¬(st.locked.contains p = true) := by
    rw [h]
    exact Bool.false_ne_true
  refine ⟨⟨p, st.nextFd⟩, ⟨p :: st.locked, st.nextFd + 1⟩, ?_, ?_, ?_⟩
  · rw [acquireLockFile, if_neg hnc]
  · rw [acquireLockFile, if_pos (by simp)]
  · rw [releaseLockFile]
    simp only [List.erase_cons_head]
    rw [acquireLockFile, if_neg hnc]
    exact ⟨_, _, rfl⟩

/-- C8's theorem from the empty lock table and the path `"/tmp/app.lock"`. -/
theorem C8_lock_exclusion_witness :
    (LockState.mk [] 0).locked.contains "/tmp/app.lock" = false ∧
    (∃ h1 st1,
      acquireLockFile "/tmp/app.lock" ⟨[], 0⟩ = .ok (h1, st1) ∧
      acquireLockFile "/tmp/app.lock" st1 = .error
        { errno := EAGAIN,
          message := "Could not get lock " ++ "/tmp/app.lock" ++ " - " ++
            toString EAGAIN ++ ": Resource temporarily unavailable.\n" ++
            "Unable to acquire the lock, is another process using it? " } ∧
      (∃ h2 st2,
        acquireLockFile "/tmp/app.lock" (releaseLockFile h1 st1) =
          .ok (h2, st2))) :=
  ⟨by decide, C8_lock_exclusion ⟨[], 0⟩ "/tmp/app.lock" (by decide)⟩

/-- C9: `check_dependency` raises its `assert` for every test type outside
`f`, `d`, `e`, `r`, `w`, `x`, and for each recognized type returns the
resolved real path when the matching file-system test passes and `None`
when it fails. -/
theorem C9_check_dependency_dispatch (fs : FileSystem) (dep : String) :
    (∀ t, t ∉ ["f", "d", "e", "r", "w", "x"] →
      check_dependency fs t dep = .error ("Invalid type string " ++ t)) ∧
    check_dependency fs "f" dep =
      .ok (if fs.isfile dep then some (fs.realpath dep) else none) ∧
    check_dependency fs "d" dep =
      .ok (if fs.isdir dep then some (fs.realpath dep) else none) ∧
    check_dependency fs "e" dep =
      .ok (if fs.access_F dep then some (fs.realpath dep) else none) ∧
    check_dependency fs "r" dep =
      .ok (if fs.access_R dep then some (fs.realpath dep) else none) ∧
    check_dependency fs "w" dep =
      .ok (if fs.access_W dep then some (fs.realpath dep) else none) ∧
    check_dependency fs "x" dep =
      .ok (if fs.access_X dep then some (fs.realpath dep) else none) := by
  refine ⟨?_, rfl, rfl, rfl, rfl, rfl, rfl⟩
  intro t ht
  simp only [List.mem_cons, List.not_mem_nil, or_false, not_or] at ht
  obtain ⟨h1, h2, h3, h4, h5, h6⟩ := ht
  rw [check_dependency, dependency_check_funcs]
  rw [List.find?_cons_of_neg _ (by simp [Ne.symm h1]),
    List.find?_cons_of_neg _ (by simp [Ne.symm h2]),
    List.find?_cons_of_neg _ (by simp [Ne.symm h3]),
    List.find?_cons_of_neg _ (by simp [Ne.symm h4]),
    List.find?_cons_of_neg _ (by simp [Ne.symm h5]),
    List.find?_cons_of_neg _ (by simp [Ne.symm h6]),
    List.find?_nil]

end PyUtil
namespace PyUtil

/-! ### Lemmas: display_options -/

theorem display_options_loop_prompts_all (keys : List String) (d rm : String) :
    ∀ inputs : List String,
      ∀ p ∈ (display_options_loop keys d rm rm inputs).1, p = rm
  | [] => by
    intro p hp
    simp only [display_options_loop, List.mem_singleton] at hp
    exact hp
  | sel :: rest => by
    intro p hp
    simp only [display_options_loop] at hp
    by_cases h0 : ((pyLower (pyStrip sel)).length == 0) = true
    · rw [if_pos h0] at hp
      simpa using hp
    · rw [if_neg h0] at hp
      by_cases hc : keys.contains (pyLower (pyStrip sel)) = true
      · rw [if_pos hc] at hp
        simpa using hp
      · rw [if_neg hc] at hp
        simp only [List.mem_cons] at hp
        rcases hp with rfl | hp
        · rfl
        · exact display_options_loop_prompts_all keys d rm rest p hp

/-- C7: under the asserts (default key present, all keys lower-case), a
first input that strips to empty selects the default, one that
case-insensitively matches a key selects that key, and an invalid one does
not return: the loop continues on the remaining inputs, every further
prompt being the shortened repeat message, until a valid or empty input. -/
theorem C7_display_options_behaviour (option_list : List (String × String))
    (default_option msg x : String) (inputs : List String)
    (hdef : (option_keys option_list).contains default_option = true)
    (hlow : (option_keys option_list).all pyIsLower = true) :
    (display_options option_list default_option false msg (x :: inputs) =
      some (
        if pyLower (pyStrip x) = "" then
          ([display_options_message option_list default_option false msg],
            some default_option)
        else if (option_keys option_list).contains (pyLower (pyStrip x)) then
          ([display_options_message option_list default_option false msg],
            some (pyLower (pyStrip x)))
        else
          (display_options_message option_list default_option false msg ::
              (display_options_loop (option_keys option_list) default_option
                (display_options_repeat_message option_list default_option)
                (display_options_repeat_message option_list default_option)
                inputs).1,
            (display_options_loop (option_keys option_list) default_option
              (display_options_repeat_message option_list default_option)
              (display_options_repeat_message option_list default_option)
              inputs).2))) ∧
    (∀ p ∈ (display_options_loop (option_keys option_list) default_option
        (display_options_repeat_message option_list default_option)
        (display_options_repeat_message option_list default_option)
        inputs).1,
      p = display_options_repeat_message option_list default_option) := by
  refine ⟨?_, display_options_loop_prompts_all _ _ _ inputs⟩
  rw [display_options, if_neg (by rw [hdef]; simp),
    if_neg (by rw [hlow]; simp)]
  simp only [display_options_loop]
  by_cases hs0 : pyLower (pyStrip x) = ""
  · have hlen : ((pyLower (pyStrip x)).length == 0) = true := by
      rw [hs0]
      decide
    rw [hlen, if_pos rfl, if_pos hs0]
  · have hne := (EnvVar.string_ne_empty_iff_length (pyLower (pyStrip x))).mp hs0
    have hlen : ((pyLower (pyStrip x)).length == 0) = false :=
      beq_eq_false_iff_ne.mpr hne
    rw [hlen, if_neg (by exact Bool.false_ne_true), if_neg hs0]

/-- C7's theorem at the option set of the spec's example,
`{"y": "yes", "n": "no"}` with default `"n"`, and the single input `"Y"`:
the asserts hold and the answer is the key `"y"`. -/
theorem C7_display_options_behaviour_witness :
    (option_keys [("y", "yes"), ("n", "no")]).contains "n" = true ∧
    (option_keys [("y", "yes"), ("n", "no")]).all pyIsLower = true ∧
    ((display_options [("y", "yes"), ("n", "no")] "n" false "" ["Y"] =
      some (
        if pyLower (pyStrip "Y") = "" then
          ([display_options_message [("y", "yes"), ("n", "no")] "n" false ""],
            some "n")
        else if (option_keys [("y", "yes"), ("n", "no")]).contains
            (pyLower (pyStrip "Y")) then
          ([display_options_message [("y", "yes"), ("n", "no")] "n" false ""],
            some (pyLower (pyStrip "Y")))
        else
          (display_options_message [("y", "yes"), ("n", "no")] "n" false "" ::
              (display_options_loop
                (option_keys [("y", "yes"), ("n", "no")]) "n"
                (display_options_repeat_message
                  [("y", "yes"), ("n", "no")] "n")
                (display_options_repeat_message
                  [("y", "yes"), ("n", "no")] "n")
                []).1,
            (display_options_loop (option_keys [("y", "yes"), ("n", "no")])
              "n"
              (display_options_repeat_message [("y", "yes"), ("n", "no")] "n")
              (display_options_repeat_message [("y", "yes"), ("n", "no")] "n")
              []).2))) ∧
      (∀ p ∈ (display_options_loop (option_keys [("y", "yes"), ("n", "no")])
          "n"
          (display_options_repeat_message [("y", "yes"), ("n", "no")] "n")
          (display_options_repeat_message [("y", "yes"), ("n", "no")] "n")
          []).1,
        p = display_options_repeat_message [("y", "yes"), ("n", "no")] "n")) :=
  ⟨by decide, by decide,
    C7_display_options_behaviour [("y", "yes"), ("n", "no")] "n" "" "Y" []
      (by decide) (by decide)⟩

end PyUtil
